import Mathlib

/-!
Verification of the GaussianExample orchestration scripts.

The frame sampler (`Training/extract_frames.py`), the SfM post-condition
normalization (`Training/Scripts/run_colmap.py`, lines 144-163) and the
masking bridge (`Training/Scripts/auto_mask_bridge.py`) are embedded as
pure Lean functions; external collaborators (the video decoder, the
detector, the segmentation model, the mask resizer) enter as inputs.
-/

/-! ## Frame sampler (Training/extract_frames.py) -/

/-- A decoded frame: only the spatial dimensions are relevant to the
sampler (pixel content is passed through unchanged or resized opaquely). -/
structure Image where
  width : Nat
  height : Nat
deriving DecidableEq

/-- A video stream as `cv2.VideoCapture` exposes it: the reported frame
dimensions and the ordered list of frames that successive `cap.read()`
calls decode before the first failing read. -/
structure VideoStream where
  width : Nat
  height : Nat
  frames : List Image
deriving DecidableEq

/-- One saved output file of the sampler. -/
structure SavedFile where
  name : String
  frame : Image
deriving DecidableEq

/-- Filesystem side effects of `extract_frames`, in program order. -/
inductive FsEffect where
  | mkdirInput
  | writeFrame (name : String) (frame : Image)
deriving DecidableEq

/-- Abstract error taxonomy of the spec; the script realizes
`streamOpenError` as `sys.exit(1)` after the failed `cap.isOpened()`. -/
inductive ExtractError where
  | streamOpenError
deriving DecidableEq

/-- Result of one `extract_frames` run: the ordered filesystem effects and
the outcome (the returned images path, or the abstract error). -/
structure ExtractRun where
  effects : List FsEffect
  result : Except ExtractError String

/-- Zero-pad a decimal numeral to width 5, as Python `f"{n:05d}"` does for
nonnegative `n`. -/
def pad5 (n : Nat) : String :=
  let s := toString n
  if s.length < 5 then String.mk (List.replicate (5 - s.length) '0') ++ s else s

/-- The filename assigned to the `n`-th emitted frame
(`f"frame_{saved_count:05d}.jpg"`). -/
def frameName (n : Nat) : String := "frame_" ++ pad5 n ++ ".jpg"

/-- Python truthiness test `if max_frames and saved_count >= max_frames:`
after `saved_count` has been incremented: `None` and `0` are both falsy. -/
def capReached (maxFrames : Option Nat) (savedCount : Nat) : Bool :=
  match maxFrames with
  | none => false
  | some n => decide (n ≠ 0 ∧ n ≤ savedCount)

/-- The resize step: `if resize_width:` is a truthiness test, so both
`None` and `0` leave the frame untouched; otherwise the frame is rescaled
to width `w` and height `int(resize_width * (height / width))`, i.e. the
floor of `w * H / W` (`width`/`height` are the stream's reported
dimensions, not the frame's). -/
def resizeFrame (resizeWidth : Option Nat) (width height : Nat) (f : Image) : Image :=
  match resizeWidth with
  | none => f
  | some w => if w = 0 then f else { width := w, height := w * height / width }

/-- The `while True` read loop of `extract_frames`: `frameIdx` counts
decoded frames, `savedCount` counts emitted ones; a frame is emitted iff
`frameIdx % frameInterval = 0`, and after saving, the loop breaks once the
(truthy) cap is reached. -/
def extractLoop (frameInterval : Nat) (maxFrames resizeWidth : Option Nat)
    (width height : Nat) : List Image → Nat → Nat → List SavedFile
  | [], _, _ => []
  | f :: rest, frameIdx, savedCount =>
    if frameIdx % frameInterval = 0 then
      let sf : SavedFile :=
        ⟨frameName savedCount, resizeFrame resizeWidth width height f⟩
      if capReached maxFrames (savedCount + 1) then [sf]
      else sf :: extractLoop frameInterval maxFrames resizeWidth width height
            rest (frameIdx + 1) (savedCount + 1)
    else extractLoop frameInterval maxFrames resizeWidth width height
          rest (frameIdx + 1) savedCount

/-- `extract_frames(video_path, output_dir, frame_interval, max_frames,
resize_width)`. The `input` directory is created first; then the capture is
opened (`video = none` models a path `cv2.VideoCapture` cannot open, which
the script reports and exits on); then the read loop runs and the images
path is returned. -/
def extract_frames (video : Option VideoStream) (outputDir : String)
    (frameInterval : Nat) (maxFrames resizeWidth : Option Nat) : ExtractRun :=
  match video with
  | none => ⟨[.mkdirInput], .error .streamOpenError⟩
  | some v =>
      let files := extractLoop frameInterval maxFrames resizeWidth
        v.width v.height v.frames 0 0
      ⟨.mkdirInput :: files.map (fun s => .writeFrame s.name s.frame),
       .ok (outputDir ++ "/input")⟩

/-- Recover the saved files (in order) from the effect trace. -/
def effToSaved : FsEffect → Option SavedFile
  | .writeFrame n f => some ⟨n, f⟩
  | .mkdirInput => none

/-- The frames a run wrote, in emission order. -/
def ExtractRun.saved (r : ExtractRun) : List SavedFile :=
  r.effects.filterMap effToSaved

theorem filterMap_effToSaved_map (l : List SavedFile) :
    List.filterMap effToSaved (l.map (fun s => FsEffect.writeFrame s.name s.frame)) = l := by
  induction l with
  | nil => rfl
  | cons s t ih => simp [List.filterMap_cons, effToSaved, ih]

theorem extract_frames_saved_eq_loop (v : VideoStream) (d : String) (k : Nat)
    (mf rw : Option Nat) :
    (extract_frames (some v) d k mf rw).saved
      = extractLoop k mf rw v.width v.height v.frames 0 0 := by
  simp only [extract_frames, ExtractRun.saved, List.filterMap_cons, effToSaved]
  exact filterMap_effToSaved_map _

/-! ## Counting the emitted frames -/

theorem capReached_none (c : Nat) : capReached none c = false := rfl

theorem capReached_some_zero (c : Nat) : capReached (some 0) c = false := by
  simp [capReached]

/-- Ceiling-division step: `(i + k) / k` exceeds `(i + k - 1) / k` exactly
when `k` divides `i`. -/
theorem ceil_div_step (i k : Nat) (hk : 0 < k) :
    (i + k) / k = (i + k - 1) / k + (if i % k = 0 then 1 else 0) := by
  by_cases h : i % k = 0
  · have hd := Nat.div_add_mod i k
    rw [h] at hd
    obtain ⟨q, rfl⟩ : ∃ q, i = k * q := ⟨i / k, by omega⟩
    have e1 : k * q + k - 1 = k * q + (k - 1) := by omega
    rw [if_pos h, e1, Nat.mul_add_div hk, Nat.mul_add_div hk,
      Nat.div_self hk, Nat.div_eq_of_lt (by omega)]
  · have hq := Nat.div_add_mod i k
    set q := i / k with hqdef
    set r := i % k with hrdef
    have hr1 : 1 ≤ r := by omega
    have hrk : r < k := Nat.mod_lt _ hk
    have e1 : i + k = k * q + (r + k) := by omega
    have e2 : i + k - 1 = k * q + (r + k - 1) := by omega
    rw [if_neg h, e2, e1, Nat.mul_add_div hk, Nat.mul_add_div hk]
    have d1 : (r + k) / k = 1 := by
      have : r + k = r + k := rfl
      rw [Nat.add_div_right _ hk, Nat.div_eq_of_lt hrk]
    have d2 : (r + k - 1) / k = 1 := by
      have e4 : r + k - 1 = (r - 1) + k := by omega
      rw [e4, Nat.add_div_right _ hk, Nat.div_eq_of_lt (by omega)]
    omega

/-- With no cap, the loop started at decode index `i` emits
`ceil((i+n)/k) - ceil(i/k)` frames over `n` remaining frames (stated
additively to stay in `Nat`). -/
theorem extractLoop_none_length (k : Nat) (rw : Option Nat) (W H : Nat)
    (hk : 0 < k) (fs : List Image) :
    ∀ (i c : Nat),
      (extractLoop k none rw W H fs i c).length + (i + k - 1) / k
        = (i + fs.length + k - 1) / k := by
  induction fs with
  | nil => intro i c; simp [extractLoop]
  | cons f rest ih =>
    intro i c
    by_cases h : i % k = 0
    · have hstep := ceil_div_step i k hk
      rw [if_pos h] at hstep
      have ih' := ih (i + 1) (c + 1)
      have e1 : i + 1 + k - 1 = i + k := by omega
      have e2 : i + 1 + rest.length + k - 1 = i + (rest.length + 1) + k - 1 := by
        omega
      rw [e1, e2] at ih'
      simp only [extractLoop, if_pos h, capReached_none, Bool.false_eq_true,
        if_false, List.length_cons, List.length]
      omega
    · have ih' := ih (i + 1) c
      have hstep := ceil_div_step i k hk
      rw [if_neg h] at hstep
      have e1 : i + 1 + k - 1 = i + k := by omega
      have e2 : i + 1 + rest.length + k - 1 = i + (rest.length + 1) + k - 1 := by
        omega
      rw [e1, e2] at ih'
      simp only [extractLoop, if_neg h, List.length_cons, List.length]
      omega

/-- With a positive cap `N` and `c` frames already saved, the loop emits
`min` of the uncapped count and the remaining budget `N - c`. -/
theorem extractLoop_cap_length (k N : Nat) (rw : Option Nat) (W H : Nat)
    (hN : 0 < N) (fs : List Image) :
    ∀ (i c : Nat), c < N →
      (extractLoop k (some N) rw W H fs i c).length
        = min (extractLoop k none rw W H fs i c).length (N - c) := by
  induction fs with
  | nil => intro i c hc; simp [extractLoop]
  | cons f rest ih =>
    intro i c hc
    by_cases h : i % k = 0
    · have hnone : extractLoop k none rw W H (f :: rest) i c
          = (⟨frameName c, resizeFrame rw W H f⟩ : SavedFile)
              :: extractLoop k none rw W H rest (i + 1) (c + 1) := by
        simp [extractLoop, h, capReached_none]
      by_cases hcap : N ≤ c + 1
      · have hcap' : capReached (some N) (c + 1) = true := by
          simp [capReached]; omega
        have hsome : extractLoop k (some N) rw W H (f :: rest) i c
            = [⟨frameName c, resizeFrame rw W H f⟩] := by
          simp [extractLoop, h, hcap']
        rw [hsome, hnone]
        simp only [List.length_cons, List.length_nil]
        omega
      · have hcap' : capReached (some N) (c + 1) = false := by
          simp [capReached]; omega
        have hsome : extractLoop k (some N) rw W H (f :: rest) i c
            = (⟨frameName c, resizeFrame rw W H f⟩ : SavedFile)
                :: extractLoop k (some N) rw W H rest (i + 1) (c + 1) := by
          simp [extractLoop, h, hcap']
        rw [hsome, hnone]
        simp only [List.length_cons]
        rw [ih (i + 1) (c + 1) (by omega)]
        omega
    · have ih' := ih (i + 1) c hc
      simp only [extractLoop, if_neg h]
      exact ih'

/-! ## Claim C1: number of emitted frames -/

/-- C1 counterexample: for a 1-frame stream and stride 10 with no cap, the
sampler emits one frame (decode index 0 satisfies `0 % 10 == 0`), whereas
the claim's `floor(T / k) = floor(1 / 10) = 0` predicts zero frames. -/
theorem extract_frames_count_not_floor :
    ¬ (((extract_frames (some ⟨640, 480, [⟨640, 480⟩]⟩) "data" 10 none none).saved).length
        = 1 / 10) := by decide

/-- C1 (amended): for a stream of `T` decodable frames and positive stride
`k`, `extract_frames` emits exactly `ceil(T / k) = (T + k - 1) / k` frames
when no cap is set, and exactly `min(ceil(T / k), N)` frames when a
positive cap `N` is set (a frame is emitted at every decode index divisible
by `k`, including index 0, so the count rounds up, not down). -/
theorem extract_frames_emitted_count (v : VideoStream) (d : String) (k N : Nat)
    (rw : Option Nat) (hk : 0 < k) (hN : 0 < N) :
    ((extract_frames (some v) d k none rw).saved).length
        = (v.frames.length + k - 1) / k
    ∧ ((extract_frames (some v) d k (some N) rw).saved).length
        = min ((v.frames.length + k - 1) / k) N := by
  have h1 := extractLoop_none_length k rw v.width v.height hk v.frames 0 0
  have e1 : 0 + k - 1 = k - 1 := by omega
  have e2 : 0 + v.frames.length + k - 1 = v.frames.length + k - 1 := by omega
  rw [e1, e2] at h1
  have e3 : (k - 1) / k = 0 := Nat.div_eq_of_lt (by omega)
  rw [e3] at h1
  have h2 := extractLoop_cap_length k N rw v.width v.height hN v.frames 0 0 hN
  rw [extract_frames_saved_eq_loop, extract_frames_saved_eq_loop]
  refine ⟨by omega, ?_⟩
  rw [h2]
  omega

/-- C1 witness: a 5-frame stream with stride 2 emits `ceil(5/2) = 3`
frames uncapped and `min(3, 2) = 2` frames with cap 2. -/
theorem extract_frames_emitted_count_check :
    ((extract_frames (some ⟨640, 480, List.replicate 5 ⟨640, 480⟩⟩) "d" 2
        none none).saved).length = 3
    ∧ ((extract_frames (some ⟨640, 480, List.replicate 5 ⟨640, 480⟩⟩) "d" 2
        (some 2) none).saved).length = 2 := by
  have h := extract_frames_emitted_count ⟨640, 480, List.replicate 5 ⟨640, 480⟩⟩
    "d" 2 2 none (by decide) (by decide)
  exact ⟨by simpa using h.1, by simpa using h.2⟩

/-! ## Claim C2: resize dimensions -/

theorem extractLoop_resize_dims (k : Nat) (mf : Option Nat) (w W H : Nat)
    (hw : w ≠ 0) (fs : List Image) :
    ∀ (i c : Nat) (s : SavedFile), s ∈ extractLoop k mf (some w) W H fs i c →
      s.frame.width = w ∧ s.frame.height = w * H / W := by
  induction fs with
  | nil => intro i c s hs; simp [extractLoop] at hs
  | cons f rest ih =>
    intro i c s hs
    by_cases h : i % k = 0
    · cases hcap : capReached mf (c + 1) with
      | true =>
        simp [extractLoop, h, hcap] at hs
        subst hs
        simp [resizeFrame, hw]
      | false =>
        simp [extractLoop, h, hcap] at hs
        rcases hs with hs | hs
        · subst hs
          simp [resizeFrame, hw]
        · exact ih _ _ _ hs
    · simp only [extractLoop, if_neg h] at hs
      exact ih _ _ _ hs

/-- The height the spec's words predict: `round(w * H / W)` (stated with
round-half-up; the chosen counterexample is not a half-way case, so any
rounding convention gives the same value). -/
def roundHeight (w H W : Nat) : Nat := (2 * (w * H) + W) / (2 * W)

/-- C2 counterexample: for a 640x480 stream and `resize_width = 333`, the
code computes `int(333 * 480 / 640) = int(249.75) = 249` (truncation),
whereas the claim's `round(333 * 480 / 640) = 250`. -/
theorem extract_frames_resize_not_round :
    ((extract_frames (some ⟨640, 480, [⟨640, 480⟩]⟩) "d" 1 none
        (some 333)).saved).map (fun s => s.frame.height) = [249]
    ∧ roundHeight 333 480 640 = 250 := by decide

/-- C2 (amended): when `resize_width = w` is set and nonzero (the code
tests it with truthiness, so `0` keeps the original dimensions), every
emitted frame has width exactly `w` and height `floor(w * H / W)` (Python
`int()` truncation of `w * (H / W)`), where `H, W` are the stream's
reported dimensions. -/
theorem extract_frames_resize_dims (v : VideoStream) (d : String) (k : Nat)
    (mf : Option Nat) (w : Nat) (hw : w ≠ 0) (s : SavedFile)
    (hs : s ∈ (extract_frames (some v) d k mf (some w)).saved) :
    s.frame.width = w ∧ s.frame.height = w * v.height / v.width := by
  rw [extract_frames_saved_eq_loop] at hs
  exact extractLoop_resize_dims k mf w v.width v.height hw v.frames 0 0 s hs

/-- C2 witness: a 640x480 single-frame stream resized to width 320 yields
a 320x240 frame, and `240 = 320 * 480 / 640`. -/
theorem extract_frames_resize_dims_check :
    (⟨frameName 0, ⟨320, 240⟩⟩ : SavedFile).frame.width = 320
    ∧ (⟨frameName 0, ⟨320, 240⟩⟩ : SavedFile).frame.height = 320 * 480 / 640 :=
  extract_frames_resize_dims ⟨640, 480, [⟨640, 480⟩]⟩ "d" 1 none 320
    (by decide) ⟨frameName 0, ⟨320, 240⟩⟩ (by decide)

/-! ## Claim C3: open failure -/

/-- C3: when the video cannot be opened, the run fails with
`streamOpenError` (the script's diagnostic-and-exit path) and no frame is
written. -/
theorem extract_frames_open_failure (d : String) (k : Nat) (mf rw : Option Nat) :
    (extract_frames none d k mf rw).result
        = Except.error ExtractError.streamOpenError
    ∧ (extract_frames none d k mf rw).saved = [] :=
  ⟨rfl, rfl⟩

/-! ## Claim C4: emitted filenames -/

theorem extractLoop_names (k : Nat) (mf rw : Option Nat) (W H : Nat)
    (fs : List Image) :
    ∀ (i c : Nat),
      (extractLoop k mf rw W H fs i c).map (fun s => s.name)
        = (List.range' c (extractLoop k mf rw W H fs i c).length).map frameName := by
  induction fs with
  | nil => intro i c; simp [extractLoop]
  | cons f rest ih =>
    intro i c
    by_cases h : i % k = 0
    · cases hcap : capReached mf (c + 1) with
      | true => simp [extractLoop, h, hcap]
      | false =>
        have ih' := ih (i + 1) (c + 1)
        simp [extractLoop, h, hcap, List.range'_succ, ih']
    · simp only [extractLoop, if_neg h]
      exact ih (i + 1) c

/-- C4: the emitted filenames are exactly `frame_{pad5 j}.jpg` for
`j = 0, 1, ...` in emission order: a zero-padded, gapless, strictly
increasing sequence starting at 0, independent of the stride and cap. -/
theorem extract_frames_filenames (video : Option VideoStream) (d : String)
    (k : Nat) (mf rw : Option Nat) :
    ((extract_frames video d k mf rw).saved).map (fun s => s.name)
      = (List.range ((extract_frames video d k mf rw).saved).length).map
          frameName := by
  cases video with
  | none => rfl
  | some v =>
    rw [extract_frames_saved_eq_loop, List.range_eq_range']
    exact extractLoop_names k mf rw v.width v.height v.frames 0 0

/-! ## Claim C9: max_frames = 0 behaves as no cap -/

theorem extractLoop_cap_zero (k : Nat) (rw : Option Nat) (W H : Nat)
    (fs : List Image) :
    ∀ (i c : Nat),
      extractLoop k (some 0) rw W H fs i c = extractLoop k none rw W H fs i c := by
  induction fs with
  | nil => intro i c; rfl
  | cons f rest ih =>
    intro i c
    by_cases h : i % k = 0
    · simp [extractLoop, h, capReached_some_zero, capReached_none,
        ih (i + 1) (c + 1)]
    · simp only [extractLoop, if_neg h]
      exact ih (i + 1) c

/-- C9: because the cap is tested with Python truthiness (`if max_frames`),
`max_frames = 0` is indistinguishable from `max_frames = None`: the run
emits every stride-selected frame instead of zero frames. -/
theorem extract_frames_cap_zero (video : Option VideoStream) (d : String)
    (k : Nat) (rw : Option Nat) :
    extract_frames video d k (some 0) rw = extract_frames video d k none rw := by
  cases video with
  | none => rfl
  | some v => simp [extract_frames, extractLoop_cap_zero]

/-! ## Claim C10: output directory is created before the open attempt -/

/-- C10: the first filesystem effect of every run is the creation of
`<output_dir>/input`, and a run whose video cannot be opened still performs
exactly that effect: the failing call does not leave the filesystem
unchanged. -/
theorem extract_frames_mkdir_before_open (video : Option VideoStream)
    (d : String) (k : Nat) (mf rw : Option Nat) :
    (extract_frames video d k mf rw).effects.head? = some FsEffect.mkdirInput
    ∧ (extract_frames none d k mf rw).effects = [FsEffect.mkdirInput] := by
  refine ⟨?_, rfl⟩
  cases video with
  | none => rfl
  | some v => rfl

/-! ## SfM invoker post-condition (Training/Scripts/run_colmap.py) -/

/-- The two directories the post-condition check of
`run_colmap_preprocessing` reads and writes: `some files` means the
directory exists with the given entries, `none` that it is absent. -/
structure ColmapFs where
  sparse0 : Option (List String)
  distortedSparse0 : Option (List String)
deriving DecidableEq

/-- Lines 144-163 of `run_colmap.py`: if `sparse/0` exists, nothing is
changed; otherwise it is created (`mkdir(parents=True)`) and, when
`distorted/sparse/0` exists, its files are copied in (`shutil.copy2`); when
the source is also absent, `sparse/0` is left freshly created and empty. -/
def normalizeSparse (fs : ColmapFs) : ColmapFs :=
  match fs.sparse0 with
  | some _ => fs
  | none =>
    match fs.distortedSparse0 with
    | some files => { fs with sparse0 := some files }
    | none => { fs with sparse0 := some [] }

/-- `run_colmap_preprocessing`: the four external steps (and the initial
`input` directory check) each `sys.exit(1)` on failure, modelled as `none`;
on success the normalization step runs and the function returns normally. -/
def run_colmap_preprocessing (imagesExist featureOk matchOk mapOk undistortOk : Bool)
    (fs : ColmapFs) : Option ColmapFs :=
  if imagesExist && featureOk && matchOk && mapOk && undistortOk then
    some (normalizeSparse fs)
  else
    none

/-- C5 counterexample: when the four steps succeed but neither `sparse/0`
nor `distorted/sparse/0` exists, the invoker still completes successfully
and leaves `sparse/0` existing but empty, refuting the claimed non-empty
post-condition. -/
theorem run_colmap_sparse_may_be_empty :
    ∃ fs', run_colmap_preprocessing true true true true true ⟨none, none⟩ = some fs'
      ∧ fs'.sparse0 = some [] :=
  ⟨⟨some [], none⟩, rfl, rfl⟩

/-- C5 (amended): whenever `run_colmap_preprocessing` completes
successfully, `sparse/0` exists; if it was absent after the four SfM steps,
the invoker populates it by copying the files of `distorted/sparse/0` when
that directory exists (and otherwise creates it empty), never treating the
absence as a failure; an already-present `sparse/0` is left unchanged. -/
theorem run_colmap_sparse_normalized (fs : ColmapFs) :
    (run_colmap_preprocessing true true true true true fs).isSome = true
    ∧ ∀ fs', run_colmap_preprocessing true true true true true fs = some fs' →
        fs'.sparse0.isSome = true
        ∧ (fs.sparse0 = none →
            fs'.sparse0 = some (fs.distortedSparse0.getD []))
        ∧ (∀ l, fs.sparse0 = some l → fs'.sparse0 = some l) := by
  refine ⟨rfl, ?_⟩
  intro fs' hfs'
  have hfs : fs' = normalizeSparse fs := by
    simpa [run_colmap_preprocessing] using hfs'.symm
  subst hfs
  rcases fs with ⟨s0, d0⟩
  rcases s0 with _ | l0
  · rcases d0 with _ | ld
    · exact ⟨rfl, fun _ => rfl, fun l hl => by simp at hl⟩
    · exact ⟨rfl, fun _ => rfl, fun l hl => by simp at hl⟩
  · refine ⟨rfl, fun hcontra => by simp at hcontra, fun l hl => ?_⟩
    simpa [normalizeSparse] using hl

/-- C5 witness: with `sparse/0` absent and `distorted/sparse/0` holding the
three model files, the successful run copies them into `sparse/0`. -/
theorem run_colmap_sparse_normalized_check :
    (run_colmap_preprocessing true true true true true
        ⟨none, some ["cameras.bin", "images.bin", "points3D.bin"]⟩).isSome = true
    ∧ (run_colmap_preprocessing true true true true true
        ⟨none, some ["cameras.bin", "images.bin", "points3D.bin"]⟩)
        = some ⟨some ["cameras.bin", "images.bin", "points3D.bin"],
                some ["cameras.bin", "images.bin", "points3D.bin"]⟩ := by
  have h := run_colmap_sparse_normalized
    ⟨none, some ["cameras.bin", "images.bin", "points3D.bin"]⟩
  refine ⟨h.1, ?_⟩
  have h2 := (h.2 ⟨some ["cameras.bin", "images.bin", "points3D.bin"],
    some ["cameras.bin", "images.bin", "points3D.bin"]⟩ rfl).2.1 rfl
  rfl

/-! ## Masking bridge (Training/Scripts/auto_mask_bridge.py) -/

/-- A BGR pixel. -/
abbrev Pixel := Nat × Nat × Nat

/-- An in-memory image as `cv2.imread` yields it. -/
structure Img where
  width : Nat
  height : Nat
  pix : Nat → Nat → Pixel

/-- A detector box (`xyxy` coordinates). -/
abbrev Box := Nat × Nat × Nat × Nat

/-- A boolean segmentation mask with its own spatial dimensions. -/
structure Mask where
  width : Nat
  height : Nat
  mem : Nat → Nat → Bool

/-- `np.zeros_like(img)`: an all-zero image of identical dimensions. -/
def blackLike (img : Img) : Img :=
  ⟨img.width, img.height, fun _ _ => (0, 0, 0)⟩

/-- The per-mask resize guard: a mask whose shape already matches the
target is used as is; otherwise the external resizer (`cv2.resize` with
`dsize = (w, h)`) is applied. -/
def resizeFit (resize : Mask → Nat → Nat → Mask) (w h : Nat) (m : Mask) : Mask :=
  if m.width = w ∧ m.height = h then m else resize m w h

/-- `combined_mask`: starting from `np.zeros(img.shape[:2], dtype=bool)`,
each produced mask is ORed in after the shape guard. -/
def unionMasks (w h : Nat) (resize : Mask → Nat → Nat → Mask)
    (ms : List Mask) : Mask :=
  ms.foldl
    (fun acc m => ⟨w, h, fun x y => acc.mem x y || (resizeFit resize w h m).mem x y⟩)
    ⟨w, h, fun _ _ => false⟩

/-- `img[~combined_mask] = [0, 0, 0]`: pixels outside the mask are zeroed,
pixels inside pass through unchanged. -/
def applyMask (img : Img) (m : Mask) : Img :=
  ⟨img.width, img.height,
   fun x y => if m.mem x y then img.pix x y else (0, 0, 0)⟩

/-- One input file together with what the external collaborators do on it:
the `cv2.imread` result, the detector's boxes, the segmentation model's
masks (`none` models `seg_results[0].masks is None`), and whether any of
those calls raises an exception. -/
structure ImgItem where
  name : String
  readResult : Option Img
  detBoxes : List Box
  segMasks : Option (List Mask)
  throws : Bool

/-- The observable outcome of one loop iteration of `process_images`. -/
inductive ItemResult where
  | written (name : String) (img : Img)
  | skippedUnreadable (name : String)
  | errorLogged (name : String)

/-- One iteration of the `for i, file in enumerate(files)` loop body: an
exception is caught and logged; an unreadable image (`imread` returning
`None`) is skipped; zero detected boxes yield the black image; otherwise
the masks are unioned and applied. -/
def processItem (resize : Mask → Nat → Nat → Mask) (it : ImgItem) : ItemResult :=
  if it.throws then .errorLogged it.name
  else
    match it.readResult with
    | none => .skippedUnreadable it.name
    | some img =>
      if it.detBoxes.isEmpty then .written it.name (blackLike img)
      else .written it.name
        (applyMask img
          (unionMasks img.width img.height resize (it.segMasks.getD [])))

/-- `process_images`: the sequential per-file loop. -/
def process_images (resize : Mask → Nat → Nat → Mask) :
    List ImgItem → List ItemResult
  | [] => []
  | it :: rest => processItem resize it :: process_images resize rest

theorem process_images_eq_map (resize : Mask → Nat → Nat → Mask)
    (items : List ImgItem) :
    process_images resize items = items.map (processItem resize) := by
  induction items with
  | nil => rfl
  | cons it rest ih => simp [process_images, ih]

/-! ## Claim C6: zero detected boxes -/

/-- C6: an image that reads successfully but yields zero boxes for the
prompt produces an all-zero output of identical dimensions, written
normally (not an error outcome). -/
theorem processItem_zero_boxes (resize : Mask → Nat → Nat → Mask)
    (it : ImgItem) (img : Img)
    (hthrow : it.throws = false) (hread : it.readResult = some img)
    (hdet : it.detBoxes = []) :
    processItem resize it = ItemResult.written it.name (blackLike img)
    ∧ (blackLike img).width = img.width
    ∧ (blackLike img).height = img.height
    ∧ ∀ x y, (blackLike img).pix x y = (0, 0, 0) := by
  refine ⟨?_, rfl, rfl, fun x y => rfl⟩
  simp [processItem, hthrow, hread, hdet]

/-- A sample 4x3 image with non-zero pixels. -/
def sampleImg : Img := ⟨4, 3, fun x y => (x + y + 1, 2, 3)⟩

/-- A sample resizer: keeps the membership function, retags dimensions. -/
def sampleResize : Mask → Nat → Nat → Mask := fun m w h => ⟨w, h, m.mem⟩

/-- C6 witness. -/
theorem processItem_zero_boxes_check :
    processItem sampleResize ⟨"a.jpg", some sampleImg, [], none, false⟩
        = ItemResult.written "a.jpg" (blackLike sampleImg)
    ∧ (blackLike sampleImg).width = sampleImg.width
    ∧ (blackLike sampleImg).height = sampleImg.height
    ∧ ∀ x y, (blackLike sampleImg).pix x y = (0, 0, 0) :=
  processItem_zero_boxes sampleResize ⟨"a.jpg", some sampleImg, [], none, false⟩
    sampleImg rfl rfl rfl

/-! ## Claim C7: at least one detected box -/

theorem foldl_union_mem (w h : Nat) (resize : Mask → Nat → Nat → Mask)
    (ms : List Mask) :
    ∀ (acc : Mask) (x y : Nat),
      (ms.foldl
        (fun acc m =>
          ⟨w, h, fun x y => acc.mem x y || (resizeFit resize w h m).mem x y⟩)
        acc).mem x y
        = (acc.mem x y || ms.any fun m => (resizeFit resize w h m).mem x y) := by
  induction ms with
  | nil => intro acc x y; simp
  | cons m rest ih =>
    intro acc x y
    simp [List.foldl_cons, ih, Bool.or_assoc]

theorem unionMasks_mem (w h : Nat) (resize : Mask → Nat → Nat → Mask)
    (ms : List Mask) (x y : Nat) :
    (unionMasks w h resize ms).mem x y
      = ms.any fun m => (resizeFit resize w h m).mem x y := by
  simp [unionMasks, foldl_union_mem]

/-- C7: with at least one detected box, the written output has the source
dimensions and every pixel equals the source pixel when some produced mask
(resized first when its shape mismatches the source) covers it under the
logical-OR union, and `(0,0,0)` otherwise. -/
theorem processItem_with_boxes (resize : Mask → Nat → Nat → Mask)
    (it : ImgItem) (img : Img)
    (hthrow : it.throws = false) (hread : it.readResult = some img)
    (hdet : it.detBoxes ≠ []) :
    ∃ out, processItem resize it = ItemResult.written it.name out
      ∧ out.width = img.width ∧ out.height = img.height
      ∧ ∀ x y, out.pix x y =
          if (it.segMasks.getD []).any
              (fun m => (resizeFit resize img.width img.height m).mem x y)
          then img.pix x y else (0, 0, 0) := by
  refine ⟨applyMask img
    (unionMasks img.width img.height resize (it.segMasks.getD [])), ?_, rfl, rfl, ?_⟩
  · have hempty : it.detBoxes.isEmpty = false := by
      cases hb : it.detBoxes with
      | nil => exact absurd hb hdet
      | cons a l => rfl
    simp [processItem, hthrow, hread, hempty]
  · intro x y
    simp [applyMask, unionMasks_mem]

/-- A sample mask matching `sampleImg`. -/
def sampleMask : Mask := ⟨4, 3, fun x y => decide (x = 0 ∧ y = 0)⟩

/-- C7 witness. -/
theorem processItem_with_boxes_check :
    ∃ out,
      processItem sampleResize
          ⟨"b.jpg", some sampleImg, [(0, 0, 1, 1)], some [sampleMask], false⟩
        = ItemResult.written "b.jpg" out
      ∧ out.width = sampleImg.width ∧ out.height = sampleImg.height
      ∧ ∀ x y, out.pix x y =
          if [sampleMask].any
              (fun m => (resizeFit sampleResize sampleImg.width sampleImg.height m).mem x y)
          then sampleImg.pix x y else (0, 0, 0) :=
  processItem_with_boxes sampleResize
    ⟨"b.jpg", some sampleImg, [(0, 0, 1, 1)], some [sampleMask], false⟩
    sampleImg rfl rfl (by simp)

/-! ## Claim C8: per-item failures do not abort the batch -/

/-- C8: whatever item `j` of the batch raises, the loop catches it: the run
still processes every item of the batch in order (the result list is the
itemwise image of `processItem`), and the raising item's outcome is the
logged-error result, not an abort. -/
theorem process_images_continues (resize : Mask → Nat → Nat → Mask)
    (items : List ImgItem) (j : Nat) (hj : j < items.length)
    (hthrow : (items.get ⟨j, hj⟩).throws = true) :
    process_images resize items = items.map (processItem resize)
    ∧ processItem resize (items.get ⟨j, hj⟩)
        = ItemResult.errorLogged (items.get ⟨j, hj⟩).name := by
  refine ⟨process_images_eq_map resize items, ?_⟩
  simp only [processItem, hthrow]
  rfl

/-- C8 witness: a three-item batch whose middle item raises. -/
theorem process_images_continues_check :
    process_images sampleResize
        [⟨"a.jpg", some sampleImg, [], none, false⟩,
         ⟨"bad.jpg", none, [], none, true⟩,
         ⟨"c.jpg", some sampleImg, [], none, false⟩]
      = ([⟨"a.jpg", some sampleImg, [], none, false⟩,
          ⟨"bad.jpg", none, [], none, true⟩,
          ⟨"c.jpg", some sampleImg, [], none, false⟩] : List ImgItem).map
          (processItem sampleResize)
    ∧ processItem sampleResize
        (([⟨"a.jpg", some sampleImg, [], none, false⟩,
           ⟨"bad.jpg", none, [], none, true⟩,
           ⟨"c.jpg", some sampleImg, [], none, false⟩] : List ImgItem).get
          ⟨1, by decide⟩)
        = ItemResult.errorLogged
            (([⟨"a.jpg", some sampleImg, [], none, false⟩,
               ⟨"bad.jpg", none, [], none, true⟩,
               ⟨"c.jpg", some sampleImg, [], none, false⟩] : List ImgItem).get
              ⟨1, by decide⟩).name :=
  process_images_continues sampleResize
    [⟨"a.jpg", some sampleImg, [], none, false⟩,
     ⟨"bad.jpg", none, [], none, true⟩,
     ⟨"c.jpg", some sampleImg, [], none, false⟩]
    1 (by decide) rfl
